import Mathlib

/-!
Verification development for the Extron AV-device TCP client
(`custom_components/extron/extron.py`).

The client is asynchronous Python.  We embed it shallowly:

* Bytes and decoded text are modelled as `Char` lists / `String`s (the wire
  protocol is ASCII, and the code decodes with the default codec).
* Each Python exception that the code can raise or catch is a constructor of
  `PyError`; fallible code returns `Except PyError α`.
* The network environment is scripted: each call to
  `_run_command_internal` consumes one `Wire` entry describing what the
  write+read cycle observed (a byte stream to frame, a `wait_for` timeout, or
  a transport exception), and `connect` / `disconnect` outcomes are given by
  `ConnectEv` / `CloseEv`.
* `_connected` and the presence of `self._writer` (`None` or not) form the
  `ClientState`; observable side effects (socket open/close, write+read
  attempts, the reconnect triggered by `run_command`'s `finally:` block) are
  recorded in an event trace.
* Python's `try/except/finally` is translated explicitly: the `except`
  clauses map errors, and an exception raised inside `finally` replaces the
  in-flight result, exactly as in Python.
* The mutual-exclusion gate (`asyncio.Semaphore()`, initial value 1) guarding
  `_run_command_internal` is modelled separately as a small transition system
  over the program counters of `n` concurrent callers.
-/

namespace Extron

/-- The Python exceptions the client raises, catches or propagates.
`responseError` carries the string interpolated into
`ResponseError(f"Command failed with error code {response}")`, i.e. the raw
response; `runtimeError` carries the literal message. -/
inductive PyError where
  | attributeError
  | typeError
  | timeoutError
  | connectionResetError
  | brokenPipeError
  | connectionError
  | osError
  | authenticationError
  | responseError (response : String)
  | runtimeError (msg : String)
  deriving DecidableEq, Repr

/-- Python's exception hierarchy: `ConnectionResetError` and `BrokenPipeError`
are subclasses of `ConnectionError`; a plain `OSError` is not caught by
`except ConnectionError`. -/
def isConnectionError : PyError → Bool
  | PyError.connectionResetError => true
  | PyError.brokenPipeError => true
  | PyError.connectionError => true
  | _ => false

/-- The mutable state of an `ExtronDevice` instance: `self._connected` and
whether `self._writer` is set (it is `None` until the first successful
`open_connection`). -/
structure ClientState where
  connected : Bool
  writer : Bool
  deriving DecidableEq, Repr

/-- `is_error_response` from extron.py:
`error_regexp.match(response) is not None` with
`error_regexp = re.compile("E[0-9]{2}")`.  Python's `re.match` anchors only at
the start of the string, so this is a prefix match: the first character must
be `E` and the next two must be ASCII digits; anything may follow. -/
def is_error_response (response : String) : Bool :=
  match response.toList with
  | c :: d1 :: d2 :: _ => c == 'E' && d1.isDigit && d2.isDigit
  | _ => false

/-- The loop body of `_read_until`: while the reader is not at EOF, read one
byte, append it to the buffer `acc`, and return the buffer as soon as it ends
with the phrase.  An exhausted stream models `at_eof()` turning true. -/
def read_until_aux (ph : List Char) : List Char → List Char → Option (List Char)
  | _, [] => none
  | acc, c :: rest =>
    if ph.isSuffixOf (acc ++ [c]) then some (acc ++ [c])
    else read_until_aux ph (acc ++ [c]) rest

/-- `_read_until(phrase)`: accumulate bytes one at a time until the buffer's
trailing bytes equal the phrase, returning the full decoded buffer, or `none`
when EOF is reached first. -/
def read_until (phrase : String) (stream : List Char) : Option String :=
  (read_until_aux phrase.toList [] stream).map String.mk

/-- Python `str.isspace` characters relevant to `str.strip()` (ASCII range,
which is all the wire protocol produces). -/
def pyIsSpace (c : Char) : Bool :=
  c == ' ' || c == '\t' || c == '\n' || c == '\r' || c == '\x0b' || c == '\x0c'

/-- `str.strip()` on a character list: drop whitespace from both ends. -/
def pyStripL (l : List Char) : List Char :=
  ((l.dropWhile pyIsSpace).reverse.dropWhile pyIsSpace).reverse

/-- Python `response.strip()`. -/
def pyStrip (s : String) : String :=
  String.mk (pyStripL s.toList)

/-- What one write+read cycle (`_run_command_internal` under
`asyncio.wait_for(..., timeout=3)`) observes on the wire:
* `stream bs` — the write succeeded and the read side of the socket holds the
  bytes `bs` (framed by `_read_until`);
* `timeout` — the cycle did not finish within the 3 time-unit timeout;
* `reset` / `broken` — the transport raised `ConnectionResetError` /
  `BrokenPipeError`. -/
inductive Wire where
  | stream (bytes : List Char)
  | timeout
  | reset
  | broken
  deriving DecidableEq, Repr

/-- Outcome of `self._writer.close(); await self._writer.wait_closed()` in
`disconnect` (only consulted when the writer exists). -/
inductive CloseEv where
  | ok
  | fail (e : PyError)
  deriving DecidableEq, Repr

/-- Outcome of the authentication hook under `asyncio.wait_for(..., 5)` in
`connect`. -/
inductive LoginEv where
  | ok
  | timesOut
  | fails (e : PyError)
  deriving DecidableEq, Repr

/-- Outcome of `asyncio.open_connection` followed by the login hook. -/
inductive ConnectEv where
  | openFail (e : PyError)
  | openOk (login : LoginEv)
  deriving DecidableEq, Repr

/-- Observable events: a write+read attempt on the wire, socket open/close,
and the reconnect recovery attempt fired by `run_command`'s `finally:`. -/
inductive Ev where
  | attempt
  | openSock
  | closeSock
  | reconnectAttempt
  deriving DecidableEq, Repr

/-- The scripted environment for one `run_command` call: the wire outcomes of
successive internal cycles, plus the close/connect outcomes used if the
`finally:` block runs `reconnect()`. -/
structure RCEnv where
  wires : List Wire
  close : CloseEv
  conn : ConnectEv

/-- `_run_command_internal`: dereferences `self._writer` first (so a client
that never connected raises `AttributeError` before touching the wire), then
performs the write+read cycle described by the next script entry.  An
exhausted script (`none`) models a device that never answers, i.e. the
3 time-unit `wait_for` fires. -/
def run_command_internal (st : ClientState) (w : Option Wire) :
    Except PyError (Option String) :=
  if st.writer then
    match w with
    | none => Except.error PyError.timeoutError
    | some (Wire.stream bs) => Except.ok (read_until "\r\n" bs)
    | some Wire.timeout => Except.error PyError.timeoutError
    | some Wire.reset => Except.error PyError.connectionResetError
    | some Wire.broken => Except.error PyError.brokenPipeError
  else Except.error PyError.attributeError

/-- The `while count < 5` retry loop of `run_command`, with `fuel = 5 - count`
(the loop is entered with `count = 0`).  Each iteration sleeps 1 time-unit,
runs a fresh write+read cycle, and continues only while the new response is
classified as an error *and* equals `"E10"` exactly.  A `None` response fed
to `is_error_response` would raise `TypeError`, as `re.match(None)` does.
When the fuel runs out the last response (an `"E10"`) falls through. -/
def retry_loop (st : ClientState) : Nat → String → List Wire →
    Except PyError String × List Ev
  | 0, response, _ => (Except.ok response, [])
  | fuel + 1, _, wires =>
    match run_command_internal st wires.head? with
    | Except.error e => (Except.error e, [Ev.attempt])
    | Except.ok none => (Except.error PyError.typeError, [Ev.attempt])
    | Except.ok (some r) =>
      if is_error_response r && r == "E10" then
        let next := retry_loop st fuel r wires.tail
        (next.1, Ev.attempt :: next.2)
      else (Except.ok r, [Ev.attempt])

/-- The `try:` block of `run_command`: one write+read cycle, `RuntimeError`
when EOF produced no response, the error-classification branch (with the
`response == "E10"` retry sub-branch and the `ResponseError` raise), and
`return response.strip()` on the fall-through. -/
def run_command_try (st : ClientState) (wires : List Wire) :
    Except PyError String × List Ev :=
  match run_command_internal st wires.head? with
  | Except.error e => (Except.error e, [Ev.attempt])
  | Except.ok none => (Except.error (PyError.runtimeError "Command failed"), [Ev.attempt])
  | Except.ok (some response) =>
    if is_error_response response then
      if response == "E10" then
        let next := retry_loop st 5 response wires.tail
        match next.1 with
        | Except.error e => (Except.error e, Ev.attempt :: next.2)
        | Except.ok r => (Except.ok (pyStrip r), Ev.attempt :: next.2)
      else (Except.error (PyError.responseError response), [Ev.attempt])
    else (Except.ok (pyStrip response), [Ev.attempt])

/-- The `except` clauses of `run_command`: `TimeoutError` becomes
`RuntimeError("Command timed out")`; `ConnectionResetError` and
`BrokenPipeError` set `self._connected = False` and become
`RuntimeError("Connection was reset")`; everything else propagates. -/
def run_command_except (st : ClientState) :
    Except PyError String → Except PyError String × ClientState
  | Except.ok s => (Except.ok s, st)
  | Except.error PyError.timeoutError =>
      (Except.error (PyError.runtimeError "Command timed out"), st)
  | Except.error PyError.connectionResetError =>
      (Except.error (PyError.runtimeError "Connection was reset"), { st with connected := false })
  | Except.error PyError.brokenPipeError =>
      (Except.error (PyError.runtimeError "Connection was reset"), { st with connected := false })
  | Except.error e => (Except.error e, st)

/-- `disconnect`: set `self._connected = False` unconditionally, then close
the writer, swallowing `ConnectionError` only.  On a client that never
connected, `self._writer` is `None` and `self._writer.close()` raises
`AttributeError` (not caught) before any close happens. -/
def disconnect (st : ClientState) (close : CloseEv) :
    Except PyError Unit × ClientState × List Ev :=
  let st1 := { st with connected := false }
  if st1.writer then
    match close with
    | CloseEv.ok => (Except.ok (), st1, [Ev.closeSock])
    | CloseEv.fail e =>
      ((if isConnectionError e then Except.ok () else Except.error e), st1, [Ev.closeSock])
  else (Except.error PyError.attributeError, st1, [])

/-- `connect`: `open_connection` assigns the reader/writer (on failure the
exception propagates and the state is untouched); then the login hook runs
under a 5 time-unit timeout — success sets `self._connected = True`, a
timeout is mapped to `AuthenticationError`, any other exception propagates.
No close is performed on any failure path. -/
def connect (st : ClientState) (conn : ConnectEv) :
    Except PyError Unit × ClientState × List Ev :=
  match conn with
  | ConnectEv.openFail e => (Except.error e, st, [])
  | ConnectEv.openOk login =>
    let st1 := { st with writer := true }
    match login with
    | LoginEv.ok => (Except.ok (), { st1 with connected := true }, [Ev.openSock])
    | LoginEv.timesOut => (Except.error PyError.authenticationError, st1, [Ev.openSock])
    | LoginEv.fails e => (Except.error e, st1, [Ev.openSock])

/-- `reconnect`: `await self.disconnect()` then `await self.connect()`;
a failure of either propagates. -/
def reconnect (st : ClientState) (close : CloseEv) (conn : ConnectEv) :
    Except PyError Unit × ClientState × List Ev :=
  let d := disconnect st close
  match d.1 with
  | Except.error e => (Except.error e, d.2.1, d.2.2)
  | Except.ok _ =>
    let c := connect d.2.1 conn
    (c.1, c.2.1, d.2.2 ++ c.2.2)

/-- `run_command`: the `try:` body, then the `except` clauses, then the
`finally:` block, which runs `reconnect()` whenever `self._connected` is
false at that point.  Per Python semantics, an exception raised inside
`finally:` replaces the in-flight result (return value or exception). -/
def run_command (st : ClientState) (env : RCEnv) :
    Except PyError String × ClientState × List Ev :=
  let body := run_command_try st env.wires
  let ec := run_command_except st body.1
  if ec.2.connected then (ec.1, ec.2, body.2)
  else
    let rc := reconnect ec.2 env.close env.conn
    (match rc.1 with
     | Except.ok _ => ec.1
     | Except.error e => Except.error e,
     rc.2.1, body.2 ++ Ev.reconnectAttempt :: rc.2.2)

/-- The classifier the spec's words describe for C2: a full match of `E`
followed by exactly two digits and nothing else. -/
def specIsErrorExact (r : String) : Bool :=
  match r.toList with
  | [c, d1, d2] => c == 'E' && d1.isDigit && d2.isDigit
  | _ => false

/-- The response text with the two trailing delimiter bytes removed (only
meaningful for delimiter-terminated responses). -/
def stripDelim (r : String) : String :=
  String.mk (r.toList.take (r.toList.length - 2))

/-- Number of reconnect recovery attempts recorded in a trace. -/
def countReconnects (l : List Ev) : Nat :=
  (l.filter fun e => decide (e = Ev.reconnectAttempt)).length

/-- Number of write+read cycles recorded in a trace. -/
def countAttempts (l : List Ev) : Nat :=
  (l.filter fun e => decide (e = Ev.attempt)).length

/-- Program counter of one logical caller of `run_command` with respect to
the gate of `_run_command_internal`: outside any cycle, suspended on
`async with self._semaphore`, or inside the guarded write+read region. -/
inductive PC where
  | idle
  | waiting
  | inflight
  deriving DecidableEq, Repr

/-- Global state of `n` concurrent callers sharing one `ExtronDevice`:
the value of the `asyncio.Semaphore` and each caller's program counter. -/
structure MState (n : Nat) where
  sem : Nat
  pcs : Fin n → PC

/-- Initially the semaphore has its default value 1 and nobody is inside
`_run_command_internal`. -/
def initState (n : Nat) : MState n := ⟨1, fun _ => PC.idle⟩

/-- Interleaving semantics of `_run_command_internal` under `n` callers.
`call` models a caller (or a retry iteration — each retry is a fresh call to
`_run_command_internal`) reaching `async with self._semaphore`; `acquire`
models the semaphore grant (`sem > 0`, decrement, enter the write+read
region); `release` models leaving the `async with` block (increment).  The
whole write+read is inside the region, so `inflight` covers write, drain and
read. -/
inductive Step (n : Nat) : MState n → MState n → Prop where
  | call (s t : MState n) (i : Fin n) :
      s.pcs i = PC.idle → t.pcs i = PC.waiting →
      (∀ j, j ≠ i → t.pcs j = s.pcs j) → t.sem = s.sem → Step n s t
  | acquire (s t : MState n) (i : Fin n) :
      s.pcs i = PC.waiting → 0 < s.sem → t.pcs i = PC.inflight →
      (∀ j, j ≠ i → t.pcs j = s.pcs j) → t.sem = s.sem - 1 → Step n s t
  | release (s t : MState n) (i : Fin n) :
      s.pcs i = PC.inflight → t.pcs i = PC.idle →
      (∀ j, j ≠ i → t.pcs j = s.pcs j) → t.sem = s.sem + 1 → Step n s t

/-- States reachable from the initial state by interleaved gate steps. -/
inductive Reachable (n : Nat) : MState n → Prop where
  | init : Reachable n (initState n)
  | step {s t : MState n} : Reachable n s → Step n s t → Reachable n t

/-- The gate invariant: the semaphore value never exceeds 1, it is 0 whenever
some caller is inside the write+read region, and at most one caller is inside
at any instant. -/
def GateInv {n : Nat} (s : MState n) : Prop :=
  s.sem ≤ 1 ∧ (∀ i, s.pcs i = PC.inflight → s.sem = 0) ∧
    ∀ i j, s.pcs i = PC.inflight → s.pcs j = PC.inflight → i = j

/-- Two concurrent callers, caller 0 suspended at the gate. -/
def gateWaiting : MState 2 := ⟨1, fun j => if j = 0 then PC.waiting else PC.idle⟩

/-- Two concurrent callers, caller 0 holding the gate inside a write+read
cycle. -/
def gateHeld : MState 2 := ⟨0, fun j => if j = 0 then PC.inflight else PC.idle⟩

theorem toList_mk (l : List Char) : (String.mk l).toList = l := rfl

/-- C1: the spec says a transient `E10` response is retried up to 5 times and
never surfaces as a normal result; the code compares the raw response — which
always retains its `\r\n` delimiter, since `_read_until` returns the buffer
including the delimiter — against the literal `"E10"`, so the retry branch is
dead: a device answering `E10` (six times over) makes `run_command` raise
`ResponseError` immediately, after a single write+read cycle and zero
retries. -/
theorem C1_dead_retry :
    run_command ⟨true, true⟩
        ⟨List.replicate 6 (Wire.stream ("E10\r\n".toList)), CloseEv.ok,
          ConnectEv.openOk LoginEv.ok⟩ =
      (Except.error (PyError.responseError "E10\r\n"), ⟨true, true⟩, [Ev.attempt]) := by
  rfl

/-- C2 counterexample: the claim says a string with extra characters after
the two digits is not classified as a protocol error, but `re.match` is a
prefix match: `"E105"` is classified as an error even though it does not
match `E` + exactly two digits in full. -/
theorem C2_extra_chars_classified :
    is_error_response "E105" = true ∧ specIsErrorExact "E105" = false ∧
      is_error_response "E10\r\n" = true := by
  decide

/-- C2 (amended): the classifier accepts exactly the strings whose first
three characters form an error frame (`E` + two digits); characters after the
first three are ignored. -/
theorem C2_prefix_classifier (r : String) :
    is_error_response r = specIsErrorExact (String.mk (r.toList.take 3)) := by
  rcases hl : r.data with _ | ⟨c, _ | ⟨d1, _ | ⟨d2, rest⟩⟩⟩ <;>
    simp [is_error_response, specIsErrorExact, String.toList, hl]

/-- C2 witness: the amended statement evaluated at a concrete response. -/
theorem C2_witness :
    is_error_response "E22" = specIsErrorExact (String.mk ("E22".toList.take 3)) :=
  C2_prefix_classifier "E22"

/-- C4 counterexample: when the authentication hook times out, `connect`
raises `AuthenticationError` but performs no close — the trace holds the
socket-open event only and the writer stays set, so the just-opened socket
*is* left open, contrary to the claim. -/
theorem C4_socket_left_open :
    connect ⟨false, false⟩ (ConnectEv.openOk LoginEv.timesOut) =
      (Except.error PyError.authenticationError, ⟨false, true⟩, [Ev.openSock]) ∧
    Ev.closeSock ∉ [Ev.openSock] := by
  exact ⟨rfl, by decide⟩

/-- C4 (amended): on authentication timeout `connect` fails with
`AuthenticationError` and leaves the connected flag unchanged (in particular
a fresh client is not marked connected), but the just-opened socket is left
open: the writer remains set and no close event is emitted. -/
theorem C4_auth_timeout (st : ClientState) :
    (connect st (ConnectEv.openOk LoginEv.timesOut)).1 =
        Except.error PyError.authenticationError ∧
    (connect st (ConnectEv.openOk LoginEv.timesOut)).2.1.connected = st.connected ∧
    (connect st (ConnectEv.openOk LoginEv.timesOut)).2.1.writer = true ∧
    (connect st (ConnectEv.openOk LoginEv.timesOut)).2.2 = [Ev.openSock] :=
  ⟨rfl, rfl, rfl, rfl⟩

/-- C4 witness: the amended statement evaluated on a fresh client. -/
theorem C4_witness :
    (connect ⟨false, false⟩ (ConnectEv.openOk LoginEv.timesOut)).1 =
        Except.error PyError.authenticationError ∧
    (connect ⟨false, false⟩ (ConnectEv.openOk LoginEv.timesOut)).2.1.connected =
        (⟨false, false⟩ : ClientState).connected ∧
    (connect ⟨false, false⟩ (ConnectEv.openOk LoginEv.timesOut)).2.1.writer = true ∧
    (connect ⟨false, false⟩ (ConnectEv.openOk LoginEv.timesOut)).2.2 = [Ev.openSock] :=
  C4_auth_timeout ⟨false, false⟩

/-- C8 counterexample: on a client that never connected the writer is `None`,
so `self._writer.close()` raises `AttributeError`, which `except
ConnectionError` does not catch — `disconnect` does not complete without
raising. -/
theorem C8_never_connected_raises :
    (disconnect ⟨false, false⟩ CloseEv.ok).1 = Except.error PyError.attributeError := by
  rfl

/-- C8 (amended): on any client whose socket was opened (writer present),
`disconnect` completes without raising — both on a clean close and when the
close raises a `ConnectionError`-family transport error, which is swallowed —
and the state is Disconnected afterwards; a never-connected client instead
raises `AttributeError` (see the counterexample). -/
theorem C8_disconnect (st : ClientState) (e : PyError) (hw : st.writer = true)
    (he : isConnectionError e = true) :
    (disconnect st CloseEv.ok).1 = Except.ok () ∧
    (disconnect st (CloseEv.fail e)).1 = Except.ok () ∧
    (disconnect st CloseEv.ok).2.1.connected = false ∧
    (disconnect st (CloseEv.fail e)).2.1.connected = false := by
  simp [disconnect, hw, he]

/-- C8 witness: the amended statement on a connected client whose close
raises `ConnectionResetError`. -/
theorem C8_witness :
    (disconnect ⟨true, true⟩ CloseEv.ok).1 = Except.ok () ∧
    (disconnect ⟨true, true⟩ (CloseEv.fail PyError.connectionResetError)).1 = Except.ok () ∧
    (disconnect ⟨true, true⟩ CloseEv.ok).2.1.connected = false ∧
    (disconnect ⟨true, true⟩ (CloseEv.fail PyError.connectionResetError)).2.1.connected =
      false :=
  C8_disconnect ⟨true, true⟩ PyError.connectionResetError rfl rfl

/-- C10: on a client whose `connect` never succeeded (`self._writer` is
`None`), `run_command` raises `AttributeError` — the write dereferences the
absent writer, and the `finally:` reconnect's `disconnect` does so again —
rather than any error of the spec's taxonomy, and `disconnect` raises
`AttributeError` too, but only after setting the state to Disconnected. -/
theorem C10_missing_writer (st : ClientState) (env : RCEnv)
    (hw : st.writer = false) (hc : st.connected = false) :
    (run_command st env).1 = Except.error PyError.attributeError ∧
    (disconnect st env.close).1 = Except.error PyError.attributeError ∧
    (disconnect st env.close).2.1.connected = false := by
  simp [run_command, run_command_try, run_command_internal, run_command_except,
    reconnect, disconnect, connect, hw, hc]

theorem retry_loop_evs (st : ClientState) :
    ∀ (fuel : Nat) (r : String) (wires : List Wire) (e : Ev),
      e ∈ (retry_loop st fuel r wires).2 → e = Ev.attempt := by
  intro fuel
  induction fuel with
  | zero => intro r wires e h; simp [retry_loop] at h
  | succ n ih =>
    intro r wires e h
    rcases hic : run_command_internal st wires.head? with e' | o
    · simp [retry_loop, hic] at h; exact h
    · rcases o with _ | r'
      · simp [retry_loop, hic] at h; exact h
      · by_cases hb : (is_error_response r' && r' == "E10") = true
        · simp [retry_loop, hic, hb] at h
          rcases h with h | h
          · exact h
          · exact ih r' wires.tail e h
        · simp [retry_loop, hic, hb] at h; exact h

theorem run_command_try_evs (st : ClientState) (wires : List Wire) :
    ∀ e ∈ (run_command_try st wires).2, e = Ev.attempt := by
  intro e h
  rcases hic : run_command_internal st wires.head? with e' | o
  · simp [run_command_try, hic] at h; exact h
  · rcases o with _ | response
    · simp [run_command_try, hic] at h; exact h
    · by_cases he : is_error_response response = true
      · by_cases h10 : (response == "E10") = true
        · rcases hn : (retry_loop st 5 response wires.tail).1 with e' | r'
          · simp [run_command_try, hic, he, h10, hn] at h
            rcases h with h | h
            · exact h
            · exact retry_loop_evs st 5 response wires.tail e h
          · simp [run_command_try, hic, he, h10, hn] at h
            rcases h with h | h
            · exact h
            · exact retry_loop_evs st 5 response wires.tail e h
        · simp [run_command_try, hic, he, h10] at h; exact h
      · simp [run_command_try, hic, he] at h; exact h

theorem disconnect_evs (st : ClientState) (close : CloseEv) :
    ∀ e ∈ (disconnect st close).2.2, e = Ev.closeSock := by
  intro e h
  rcases close with _ | e' <;> by_cases hw : st.writer <;>
    simp [disconnect, hw] at h <;> exact h

theorem connect_evs (st : ClientState) (conn : ConnectEv) :
    ∀ e ∈ (connect st conn).2.2, e = Ev.openSock := by
  intro e h
  rcases conn with e' | login
  · simp [connect] at h
  · rcases login with _ | _ | e' <;> simp [connect] at h <;> exact h

theorem reconnect_evs (st : ClientState) (close : CloseEv) (conn : ConnectEv) :
    ∀ e ∈ (reconnect st close conn).2.2, e = Ev.closeSock ∨ e = Ev.openSock := by
  intro e h
  rcases hd : (disconnect st close).1 with e' | u
  · simp only [reconnect, hd] at h
    exact Or.inl (disconnect_evs st close e h)
  · simp only [reconnect, hd] at h
    rcases List.mem_append.1 h with h | h
    · exact Or.inl (disconnect_evs st close e h)
    · exact Or.inr (connect_evs (disconnect st close).2.1 conn e h)

theorem countReconnects_append (a b : List Ev) :
    countReconnects (a ++ b) = countReconnects a + countReconnects b := by
  simp [countReconnects, List.filter_append]

theorem countReconnects_cons_self (l : List Ev) :
    countReconnects (Ev.reconnectAttempt :: l) = countReconnects l + 1 := by
  simp [countReconnects, List.filter_cons]

theorem countReconnects_eq_zero {l : List Ev}
    (h : ∀ e ∈ l, e ≠ Ev.reconnectAttempt) : countReconnects l = 0 := by
  induction l with
  | nil => rfl
  | cons a t ih =>
    have ha : a ≠ Ev.reconnectAttempt := h a (by simp)
    have ht := ih fun e he => h e (by simp [he])
    simp only [countReconnects, List.filter_cons] at ht ⊢
    simp [ha, ht]

/-- C3 counterexample: with the connection already marked broken, a command
that succeeds on the wire (`Ok`) still reaches the `finally:` reconnect; when
that reconnect itself fails (here `open_connection` raises an `OSError`), the
reconnect error replaces the original result — the caller gets the `OSError`
instead of `"Ok"`, so the recovery side effect *does* replace the original
result. -/
theorem C3_reconnect_failure_replaces_result :
    (run_command ⟨false, true⟩
        ⟨[Wire.stream ("Ok\r\n".toList)], CloseEv.ok, ConnectEv.openFail PyError.osError⟩).1 =
      Except.error PyError.osError ∧
    (run_command_try ⟨false, true⟩ [Wire.stream ("Ok\r\n".toList)]).1 = Except.ok "Ok" := by
  exact ⟨rfl, rfl⟩

/-- C3 (amended): whenever the connection state is not Connected when the
`finally:` block runs, exactly one reconnect attempt is triggered before the
call returns or raises; the original result or error is preserved unchanged
provided the reconnect attempt itself does not raise — if it raises, its
error replaces the original result (Python `finally` semantics). -/
theorem C3_reconnect_on_exit (st : ClientState) (env : RCEnv)
    (hnc : (run_command_except st (run_command_try st env.wires).1).2.connected = false) :
    countReconnects (run_command st env).2.2 = 1 ∧
    ((reconnect (run_command_except st (run_command_try st env.wires).1).2
          env.close env.conn).1 = Except.ok () →
      (run_command st env).1 =
        (run_command_except st (run_command_try st env.wires).1).1) := by
  constructor
  · simp only [run_command, hnc, Bool.false_eq_true, if_false]
    have h1 : countReconnects (run_command_try st env.wires).2 = 0 :=
      countReconnects_eq_zero fun e he => by
        have := run_command_try_evs st env.wires e he
        simp [this]
    have h2 : countReconnects
        (reconnect (run_command_except st (run_command_try st env.wires).1).2
          env.close env.conn).2.2 = 0 :=
      countReconnects_eq_zero fun e he => by
        rcases reconnect_evs _ env.close env.conn e he with h | h <;> simp [h]
    rw [countReconnects_append, countReconnects_cons_self, h1, h2]
  · intro hok
    simp only [run_command, hnc, Bool.false_eq_true, if_false, hok]

/-- C3 witness: a broken-marked connection, a successful wire response and a
successful reconnect — the original response is returned unchanged after the
single reconnect attempt. -/
theorem C3_witness :
    (run_command ⟨false, true⟩
        ⟨[Wire.stream ("Ok\r\n".toList)], CloseEv.ok, ConnectEv.openOk LoginEv.ok⟩).1 =
      (run_command_except ⟨false, true⟩
        (run_command_try ⟨false, true⟩ [Wire.stream ("Ok\r\n".toList)]).1).1 :=
  (C3_reconnect_on_exit ⟨false, true⟩
      ⟨[Wire.stream ("Ok\r\n".toList)], CloseEv.ok, ConnectEv.openOk LoginEv.ok⟩
      (by rfl)).2 (by rfl)

/-- C7 counterexample: a scripted `E22` reply makes `run_command` fail
immediately with a `ResponseError` after a single cycle, but the error
carries the raw un-stripped response `"E22\r\n"` — the delimiter included —
not exactly the error code `"E22"`. -/
theorem C7_payload_keeps_delimiter :
    (run_command ⟨true, true⟩
        ⟨[Wire.stream ("E22\r\n".toList)], CloseEv.ok, ConnectEv.openOk LoginEv.ok⟩).1 =
      Except.error (PyError.responseError "E22\r\n") ∧
    PyError.responseError "E22\r\n" ≠ PyError.responseError "E22" ∧
    countAttempts (run_command ⟨true, true⟩
        ⟨[Wire.stream ("E22\r\n".toList)], CloseEv.ok, ConnectEv.openOk LoginEv.ok⟩).2.2 =
      1 := by
  refine ⟨rfl, by decide, rfl⟩

/-- C7 (amended): on a connected client, any protocol-error response other
than the exact string `"E10"` makes `run_command` fail immediately — zero
retries, a single write+read cycle — with a `ResponseError` carrying the raw
delimiter-terminated response (not the bare code). -/
theorem C7_terminal_error (st : ClientState) (env : RCEnv) (bs : List Char)
    (rest : List Wire) (r : String) (hw : st.writer = true) (hc : st.connected = true)
    (hwires : env.wires = Wire.stream bs :: rest)
    (hr : read_until "\r\n" bs = some r)
    (herr : is_error_response r = true) (hne : (r == "E10") = false) :
    (run_command st env).1 = Except.error (PyError.responseError r) ∧
    countAttempts (run_command st env).2.2 = 1 := by
  have hbody : run_command_try st env.wires =
      (Except.error (PyError.responseError r), [Ev.attempt]) := by
    simp [run_command_try, hwires, run_command_internal, hw, hr, herr, hne]
  constructor <;>
    simp [run_command, hbody, run_command_except, hc, countAttempts]

/-- C7 witness: the amended statement on a scripted `E13` reply. -/
theorem C7_witness :
    (run_command ⟨true, true⟩
        ⟨[Wire.stream ("E13\r\n".toList)], CloseEv.ok, ConnectEv.openOk LoginEv.ok⟩).1 =
      Except.error (PyError.responseError "E13\r\n") ∧
    countAttempts (run_command ⟨true, true⟩
        ⟨[Wire.stream ("E13\r\n".toList)], CloseEv.ok, ConnectEv.openOk LoginEv.ok⟩).2.2 =
      1 :=
  C7_terminal_error ⟨true, true⟩
    ⟨[Wire.stream ("E13\r\n".toList)], CloseEv.ok, ConnectEv.openOk LoginEv.ok⟩
    ("E13\r\n".toList) [] "E13\r\n" rfl rfl rfl (by rfl) (by decide) (by decide)

theorem read_until_aux_some {ph : List Char} :
    ∀ (stream acc s : List Char), read_until_aux ph acc stream = some s →
      ∃ p, p ≠ [] ∧ p <+: stream ∧ s = acc ++ p ∧ ph <:+ s ∧
        ∀ q, q ≠ [] → q <+: p → ph <:+ (acc ++ q) → q = p := by
  intro stream
  induction stream with
  | nil => intro acc s h; simp [read_until_aux] at h
  | cons c rest ih =>
    intro acc s h
    by_cases hsuf : ph.isSuffixOf (acc ++ [c]) = true
    · simp only [read_until_aux, if_pos hsuf, Option.some.injEq] at h
      subst h
      refine ⟨[c], by simp, ⟨rest, rfl⟩, rfl, ?_, ?_⟩
      · exact List.isSuffixOf_iff_suffix.1 hsuf
      · intro q hq hqp _
        rcases hqp with ⟨t, ht⟩
        cases q with
        | nil => exact absurd rfl hq
        | cons a q' =>
          rw [List.cons_append] at ht
          injection ht with h1 h2
          subst h1
          have : q' = [] ∧ t = [] := by
            constructor <;> [skip; skip] <;> cases q' <;> simp_all
          simp [this.1]
    · simp only [read_until_aux, if_neg hsuf] at h
      obtain ⟨p', hp'ne, hp'pre, hs, hsuf', hmin⟩ := ih (acc ++ [c]) s h
      refine ⟨c :: p', by simp, ?_, ?_, hsuf', ?_⟩
      · rcases hp'pre with ⟨t, ht⟩
        exact ⟨t, by simp [← ht]⟩
      · simp [hs]
      · intro q hq hqp hsq
        rcases hqp with ⟨t, ht⟩
        cases q with
        | nil => exact absurd rfl hq
        | cons a q' =>
          rw [List.cons_append] at ht
          injection ht with h1 h2
          subst h1
          by_cases hq' : q' = []
          · subst hq'
            exact absurd (List.isSuffixOf_iff_suffix.2 (by simpa using hsq)) hsuf
          · have := hmin q' hq' ⟨t, h2⟩ (by simpa using hsq)
            rw [this]

theorem read_until_aux_none {ph : List Char} :
    ∀ (stream acc : List Char), read_until_aux ph acc stream = none →
      ∀ q, q ≠ [] → q <+: stream → ¬ ph <:+ (acc ++ q) := by
  intro stream
  induction stream with
  | nil =>
    intro acc _ q hq hqp
    rcases hqp with ⟨t, ht⟩
    cases q with
    | nil => exact absurd rfl hq
    | cons a q' => simp at ht
  | cons c rest ih =>
    intro acc h q hq hqp hcon
    by_cases hsuf : ph.isSuffixOf (acc ++ [c]) = true
    · simp only [read_until_aux, if_pos hsuf] at h
      exact Option.noConfusion h
    · simp only [read_until_aux, if_neg hsuf] at h
      rcases hqp with ⟨t, ht⟩
      cases q with
      | nil => exact absurd rfl hq
      | cons a q' =>
        rw [List.cons_append] at ht
        injection ht with h1 h2
        subst h1
        by_cases hq' : q' = []
        · subst hq'
          exact absurd (List.isSuffixOf_iff_suffix.2 (by simpa using hcon)) hsuf
        · exact ih (acc ++ [a]) h q' hq' ⟨t, h2⟩ (by simpa using hcon)

theorem read_until_crlf (stream : List Char) :
    read_until "\r\n" stream = (read_until_aux ['\r', '\n'] [] stream).map String.mk := rfl

theorem read_until_some_suffix {bs : List Char} {r : String}
    (h : read_until "\r\n" bs = some r) : ['\r', '\n'] <:+ r.toList := by
  rw [read_until_crlf] at h
  rcases ho : read_until_aux ['\r', '\n'] [] bs with _ | l
  · rw [ho] at h
    exact Option.noConfusion h
  · rw [ho] at h
    simp only [Option.map_some', Option.some.injEq] at h
    obtain ⟨p, _, _, hsp, hsuf, _⟩ := read_until_aux_some bs [] l ho
    rw [← h]
    exact hsuf

/-- C5: `_read_until` returns `some` text exactly when the accumulated buffer
first ends with the CR-LF delimiter: the returned text is a prefix of the
stream ending in the delimiter, and it is a prefix of (i.e. no longer than)
*every* delimiter-terminated prefix of the stream; at end-of-stream with no
delimiter ever observed it returns the `none` sentinel. -/
theorem C5_read_until (stream : List Char) :
    (∀ s, read_until "\r\n" stream = some s →
        s.toList <+: stream ∧ ['\r', '\n'] <:+ s.toList ∧
        ∀ p, p <+: stream → ['\r', '\n'] <:+ p → s.toList <+: p) ∧
    (read_until "\r\n" stream = none →
        ∀ p, p <+: stream → ¬ ['\r', '\n'] <:+ p) := by
  constructor
  · intro s h
    rw [read_until_crlf] at h
    rcases ho : read_until_aux ['\r', '\n'] [] stream with _ | l
    · rw [ho] at h
      exact Option.noConfusion h
    · rw [ho] at h
      simp only [Option.map_some', Option.some.injEq] at h
      obtain ⟨p, hpne, hppre, hsp, hsuf, hmin⟩ := read_until_aux_some stream [] l ho
      simp only [List.nil_append] at hsp
      subst hsp
      have hst : s.toList = l := by
        rw [← h]
        rfl
      rw [hst]
      refine ⟨hppre, hsuf, ?_⟩
      intro p' hp' hsufp'
      rcases List.prefix_or_prefix_of_prefix hppre hp' with hcmp | hcmp
      · exact hcmp
      · have hne' : p' ≠ [] := by
          rintro rfl
          simp at hsufp'
        have heq := hmin p' hne' hcmp (by simpa using hsufp')
        rw [← heq]
  · intro h p hp hsuf
    rw [read_until_crlf] at h
    rcases ho : read_until_aux ['\r', '\n'] [] stream with _ | l
    · have hne : p ≠ [] := by
        rintro rfl
        simp at hsuf
      exact read_until_aux_none stream [] ho p hne hp (by simpa using hsuf)
    · rw [ho] at h
      exact Option.noConfusion h

/-- C5 witness: the characterization applied to the stream `Ok␍␊X`. -/
theorem C5_witness :
    "Ok\r\n".toList <+: "Ok\r\nX".toList ∧ ['\r', '\n'] <:+ "Ok\r\n".toList := by
  have h := (C5_read_until ("Ok\r\nX".toList)).1 "Ok\r\n" (by rfl)
  exact ⟨h.1, h.2.1⟩

theorem dropWhile_dropWhile (p : Char → Bool) (l : List Char) :
    (l.dropWhile p).dropWhile p = l.dropWhile p := by
  induction l with
  | nil => rfl
  | cons a t ih =>
    by_cases h : p a = true <;> simp [List.dropWhile_cons, h, ih]

theorem dropWhile_eq_self_of_prefix {p : Char → Bool} {m l : List Char}
    (hpre : m <+: l.dropWhile p) : m.dropWhile p = m := by
  cases m with
  | nil => rfl
  | cons a t =>
    rcases hpre with ⟨r, hr⟩
    have hhead : (l.dropWhile p).head? = some a := by
      rw [← hr]
      simp
    have hpa : p a = false := by
      have hhd := List.head?_dropWhile_not p l
      rw [hhead] at hhd
      exact hhd
    simp [List.dropWhile_cons, hpa]

theorem pyStripL_idem (l : List Char) : pyStripL (pyStripL l) = pyStripL l := by
  unfold pyStripL
  have h1 : ((l.dropWhile pyIsSpace).reverse.dropWhile pyIsSpace).reverse.dropWhile
      pyIsSpace = ((l.dropWhile pyIsSpace).reverse.dropWhile pyIsSpace).reverse := by
    apply dropWhile_eq_self_of_prefix (l := l)
    have hsfx := List.dropWhile_suffix (l := (l.dropWhile pyIsSpace).reverse) pyIsSpace
    have := List.reverse_prefix.2 hsfx
    simpa using this
  rw [h1, List.reverse_reverse, dropWhile_dropWhile]

theorem pyStripL_append_ws (l w : List Char) (hw : ∀ c ∈ w, pyIsSpace c = true) :
    pyStripL (l ++ w) = pyStripL l := by
  unfold pyStripL
  rw [List.dropWhile_append]
  by_cases h : (l.dropWhile pyIsSpace).isEmpty
  · rw [if_pos h]
    have hwnil : w.dropWhile pyIsSpace = [] := List.dropWhile_eq_nil_iff.2 hw
    have hlnil : l.dropWhile pyIsSpace = [] := by
      cases hl : l.dropWhile pyIsSpace <;> simp_all
    simp [hwnil, hlnil]
  · rw [if_neg h, List.reverse_append, List.dropWhile_append]
    have hwrev : w.reverse.dropWhile pyIsSpace = [] :=
      List.dropWhile_eq_nil_iff.2 fun x hx => hw x (by simpa using hx)
    simp [hwrev]

/-- C6: for every delimiter-terminated response that is not classified as a
protocol error, `run_command` returns `response.strip()`: the CR-LF delimiter
is removed (stripping the delimiter first and trimming then yields the same
text) and the result carries no leading or trailing whitespace (stripping it
again changes nothing). -/
theorem C6_success_strip (st : ClientState) (env : RCEnv) (bs : List Char)
    (rest : List Wire) (r : String) (hw : st.writer = true) (hc : st.connected = true)
    (hwires : env.wires = Wire.stream bs :: rest)
    (hr : read_until "\r\n" bs = some r)
    (herr : is_error_response r = false) :
    (run_command st env).1 = Except.ok (pyStrip r) ∧
    pyStrip r = pyStrip (stripDelim r) ∧
    pyStrip (pyStrip r) = pyStrip r := by
  refine ⟨?_, ?_, ?_⟩
  · have hbody : run_command_try st env.wires = (Except.ok (pyStrip r), [Ev.attempt]) := by
      simp [run_command_try, hwires, run_command_internal, hw, hr, herr]
    simp [run_command, hbody, run_command_except, hc]
  · obtain ⟨l1, hl1⟩ := read_until_some_suffix hr
    have htake : (stripDelim r).toList = l1 := by
      unfold stripDelim
      rw [toList_mk, ← hl1]
      exact List.take_left' (by simp)
    unfold pyStrip
    rw [htake, ← hl1]
    exact congrArg String.mk (pyStripL_append_ws l1 ['\r', '\n'] (by decide))
  · unfold pyStrip
    rw [toList_mk]
    exact congrArg String.mk (pyStripL_idem r.toList)

/-- C6 witness: the statement on the scripted reply `␣Ok␣␍␊`. -/
theorem C6_witness :
    (run_command ⟨true, true⟩
        ⟨[Wire.stream (" Ok \r\n".toList)], CloseEv.ok, ConnectEv.openOk LoginEv.ok⟩).1 =
      Except.ok (pyStrip " Ok \r\n") ∧
    pyStrip " Ok \r\n" = pyStrip (stripDelim " Ok \r\n") ∧
    pyStrip (pyStrip " Ok \r\n") = pyStrip " Ok \r\n" :=
  C6_success_strip ⟨true, true⟩
    ⟨[Wire.stream (" Ok \r\n".toList)], CloseEv.ok, ConnectEv.openOk LoginEv.ok⟩
    (" Ok \r\n".toList) [] " Ok \r\n" rfl rfl rfl (by rfl) (by decide)

theorem gateInv_init (n : Nat) : GateInv (initState n) := by
  refine ⟨le_refl 1, ?_, ?_⟩
  · intro i h
    exact PC.noConfusion h
  · intro i j hi _
    exact PC.noConfusion hi

theorem gateInv_step {n : Nat} {s t : MState n} (hs : GateInv s) (h : Step n s t) :
    GateInv t := by
  obtain ⟨hle, hzero, huniq⟩ := hs
  cases h with
  | call i hidle hw hframe hsem =>
    have hfl : ∀ k, t.pcs k = PC.inflight → s.pcs k = PC.inflight := by
      intro k hk
      by_cases hki : k = i
      · subst hki
        rw [hw] at hk
        exact PC.noConfusion hk
      · rw [hframe k hki] at hk
        exact hk
    exact ⟨by rw [hsem]; exact hle,
      fun k hk => by rw [hsem]; exact hzero k (hfl k hk),
      fun i' j' hi' hj' => huniq i' j' (hfl i' hi') (hfl j' hj')⟩
  | acquire i hwait hpos hin hframe hsem =>
    have hnone : ∀ k, s.pcs k ≠ PC.inflight := by
      intro k hk
      have h0 := hzero k hk
      omega
    have honly : ∀ k, t.pcs k = PC.inflight → k = i := by
      intro k hk
      by_contra hki
      rw [hframe k hki] at hk
      exact hnone k hk
    exact ⟨by omega, fun k _ => by omega,
      fun i' j' hi' hj' => by rw [honly i' hi', honly j' hj']⟩
  | release i hin hout hframe hsem =>
    have hs0 : s.sem = 0 := hzero i hin
    have hnone : ∀ k, t.pcs k = PC.inflight → False := by
      intro k hk
      by_cases hki : k = i
      · subst hki
        rw [hout] at hk
        exact PC.noConfusion hk
      · rw [hframe k hki] at hk
        exact hki (huniq k i hk hin)
    exact ⟨by omega, fun k hk => (hnone k hk).elim,
      fun i' j' hi' _ => (hnone i' hi').elim⟩

theorem gateInv_reachable {n : Nat} {s : MState n} (h : Reachable n s) : GateInv s := by
  induction h with
  | init => exact gateInv_init n
  | step _ hstep ih => exact gateInv_step ih hstep

/-- C9: in every state reachable under any number of concurrent callers, at
most one caller is inside the write+read region of `_run_command_internal` —
the `asyncio.Semaphore()` gate (initial value 1, held for the whole
write+drain+read, re-acquired by every retry attempt) guarantees that no two
commands are ever concurrently written to the shared connection. -/
theorem C9_mutual_exclusion (n : Nat) (s : MState n) (h : Reachable n s) (i j : Fin n)
    (hi : s.pcs i = PC.inflight) (hj : s.pcs j = PC.inflight) : i = j :=
  (gateInv_reachable h).2.2 i j hi hj

theorem gateStepWaiting : Step 2 (initState 2) gateWaiting :=
  Step.call _ _ 0 rfl (by decide) (by decide) rfl

theorem gateStepHeld : Step 2 gateWaiting gateHeld :=
  Step.acquire _ _ 0 (by decide) (by decide) (by decide) (by decide) (by decide)

theorem gateHeld_reachable : Reachable 2 gateHeld :=
  Reachable.step (Reachable.step Reachable.init gateStepWaiting) gateStepHeld

/-- C9 witness: in the reachable two-caller state where caller 0 holds the
gate, the only in-flight caller is caller 0. -/
theorem C9_witness : (0 : Fin 2) = 0 :=
  C9_mutual_exclusion 2 gateHeld gateHeld_reachable 0 0 (by decide) (by decide)

/-- C10 witness: a fresh client with an empty script. -/
theorem C10_witness :
    (run_command ⟨false, false⟩ ⟨[], CloseEv.ok, ConnectEv.openOk LoginEv.ok⟩).1 =
        Except.error PyError.attributeError ∧
    (disconnect ⟨false, false⟩
        (⟨[], CloseEv.ok, ConnectEv.openOk LoginEv.ok⟩ : RCEnv).close).1 =
        Except.error PyError.attributeError ∧
    (disconnect ⟨false, false⟩
        (⟨[], CloseEv.ok, ConnectEv.openOk LoginEv.ok⟩ : RCEnv).close).2.1.connected =
        false :=
  C10_missing_writer ⟨false, false⟩ ⟨[], CloseEv.ok, ConnectEv.openOk LoginEv.ok⟩ rfl rfl

end Extron
